import Mathlib

/-!
# IRLremote.h: a verification development

A shallow embedding of the declarations of `src/IRLremote.h` (IRLremote 1.9.0):

* the enumeration `IRType` (values assigned by the C++ enumerator rule),
* the union `IR_data_t` as a byte object with its generic view and its `Nec` view,
* the class `CIRLData` with `timeout()` and `lastEvent()` as state-passing functions
  over the AVR status register and the three shared decoder variables.

Machine integers are natural numbers reduced modulo `2 ^ width`.
-/

namespace IRLremote

/-! ## `enum IRType` -/

/-- Enumerators of `enum IRType`, in declaration order. -/
inductive IRType where
  | IR_NO_PROTOCOL
  | IR_NEW_PROTOCOL
  | IR_USER
  | IR_ALL
  | IR_NEC
  | IR_NEC_EXTENDED
  | IR_NEC_REPEAT
  | IR_PANASONIC
  | IR_SONY8
  | IR_SONY12
  | IR_SONY15
  | IR_SONY20
  | IR_RAW
  | IR_HASH
  deriving DecidableEq, Repr

namespace IRType

/-- The enumerator list as written in the header: each enumerator with its
explicit initialiser, if it has one. -/
def declaration : List (IRType × Option Nat) :=
  [ (IR_NO_PROTOCOL, some 0x00),
    (IR_NEW_PROTOCOL, some 0x80),
    (IR_USER, none),
    (IR_ALL, none),
    (IR_NEC, none),
    (IR_NEC_EXTENDED, none),
    (IR_NEC_REPEAT, none),
    (IR_PANASONIC, none),
    (IR_SONY8, none),
    (IR_SONY12, none),
    (IR_SONY15, none),
    (IR_SONY20, none),
    (IR_RAW, none),
    (IR_HASH, none) ]

/-- The C++ rule for enumerator values: an enumerator with an initialiser has
that value, one without has the value of its predecessor plus one (`next` is the
value an enumerator without initialiser gets; it starts at zero). -/
def assign : List (IRType × Option Nat) → Nat → List (IRType × Nat)
  | [], _ => []
  | (t, some v) :: rest, _ => (t, v) :: assign rest (v + 1)
  | (t, none) :: rest, next => (t, next) :: assign rest (next + 1)

/-- The enumerators with their values. -/
def values : List (IRType × Nat) := assign declaration 0

/-- Value of the first entry for `t` in a list of valued enumerators. -/
def find (t : IRType) : List (IRType × Nat) → Option Nat
  | [] => none
  | (u, v) :: rest => if u = t then some v else find t rest

/-- The integer value of an enumerator. -/
def toNat (t : IRType) : Nat := (find t values).getD 0

/-- All enumerators, in declaration order. -/
def all : List IRType := declaration.map Prod.fst

end IRType

/-- Bit 7 (mask `0x80`, the value of `IR_NEW_PROTOCOL`) of a protocol tag. -/
def msbSet (tag : Nat) : Bool := tag &&& 0x80 != 0

/-! ## `union IR_data_t`

The union is one object of bytes; its members are read and written at the
offsets the struct layout rule gives them. Integers are stored least significant
byte first, as on the AVR and ARM targets of the Arduino toolchain. The target
enters through `a`, its largest alignment: `1` on AVR, `4` on 32-bit ARM. -/

/-- The integer types of the members of `IR_data_t`. -/
inductive Scalar where
  | uint8_t
  | uint16_t
  | uint32_t
  deriving DecidableEq, Repr

/-- Size in bytes: `sizeof`. -/
def Scalar.size : Scalar → Nat
  | .uint8_t => 1
  | .uint16_t => 2
  | .uint32_t => 4

/-- Alignment of a scalar on a target whose largest alignment is `a`. -/
def Scalar.align (a : Nat) (s : Scalar) : Nat := min s.size a

/-- The least multiple of `al` that is at least `off`. -/
def alignUp (off al : Nat) : Nat := (off + al - 1) / al * al

/-- Offsets of the members of a struct, given each member's size and alignment
in declaration order: each member goes to the first aligned offset after its
predecessor. -/
def layout : List (Nat × Nat) → Nat → List Nat
  | [], _ => []
  | (sz, al) :: rest, off => alignUp off al :: layout rest (alignUp off al + sz)

/-- Offsets of `protocol`, `address`, `command` in the anonymous struct
`struct{ uint8_t protocol; uint16_t address; uint32_t command; }`. -/
def genericOffsets (a : Nat) : List Nat :=
  layout [ (Scalar.uint8_t.size, Scalar.uint8_t.align a),
           (Scalar.uint16_t.size, Scalar.uint16_t.align a),
           (Scalar.uint32_t.size, Scalar.uint32_t.align a) ] 0

/-- Offsets of `protocol`, `address` and the anonymous inner union in the struct
`Nec`. The inner union `union{ uint16_t command; uint8_t command8;`
`struct{ uint8_t commandLo; uint8_t commandHi; }; }` has the size and the
alignment of its largest member, `uint16_t command`. -/
def necOffsets (a : Nat) : List Nat :=
  layout [ (Scalar.uint8_t.size, Scalar.uint8_t.align a),
           (Scalar.uint16_t.size, Scalar.uint16_t.align a),
           (Scalar.uint16_t.size, Scalar.uint16_t.align a) ] 0

/-- Offsets of `commandLo`, `commandHi` in the innermost anonymous struct. -/
def loHiOffsets (a : Nat) : List Nat :=
  layout [ (Scalar.uint8_t.size, Scalar.uint8_t.align a),
           (Scalar.uint8_t.size, Scalar.uint8_t.align a) ] 0

/-- The value of `sizeof(IR_data_t)`: the end of the largest member of the
union, rounded up to its alignment, that of `uint32_t`. -/
def sizeofData (a : Nat) : Nat :=
  alignUp (max ((genericOffsets a).getD 2 0 + Scalar.uint32_t.size)
               ((necOffsets a).getD 2 0 + Scalar.uint16_t.size))
          (Scalar.uint32_t.align a)

/-- An object of type `IR_data_t`: its bytes, lowest address first. -/
structure IR_data_t where
  /-- The object representation. -/
  bytes : List Nat
  deriving DecidableEq, Repr

/-- Read `n` bytes at offset `off` as an unsigned integer, least significant
byte first. -/
def loadLE (bytes : List Nat) (off : Nat) : Nat → Nat
  | 0 => 0
  | n + 1 => bytes.getD off 0 + 256 * loadLE bytes (off + 1) n

/-- Write the unsigned integer `v` into the `n` bytes at offset `off`, least
significant byte first; bits of `v` beyond `8 * n` are dropped. -/
def storeLE (bytes : List Nat) (off : Nat) : Nat → Nat → List Nat
  | 0, _ => bytes
  | n + 1, v => storeLE (bytes.set off (v % 256)) (off + 1) n (v / 256)

namespace IR_data_t

/-- An object of the size of `IR_data_t` on target `a` whose elements are bytes. -/
def WellFormed (a : Nat) (d : IR_data_t) : Prop :=
  d.bytes.length = sizeofData a ∧ ∀ b ∈ d.bytes, b < 256

instance (a : Nat) (d : IR_data_t) : Decidable (WellFormed a d) := by
  unfold WellFormed
  infer_instance

/-- Member `protocol` of the generic view. -/
def protocol (a : Nat) (d : IR_data_t) : Nat :=
  loadLE d.bytes ((genericOffsets a).getD 0 0) Scalar.uint8_t.size

/-- Member `address` of the generic view. -/
def address (a : Nat) (d : IR_data_t) : Nat :=
  loadLE d.bytes ((genericOffsets a).getD 1 0) Scalar.uint16_t.size

/-- Member `command` of the generic view. -/
def command (a : Nat) (d : IR_data_t) : Nat :=
  loadLE d.bytes ((genericOffsets a).getD 2 0) Scalar.uint32_t.size

/-- Member `Nec.protocol`. -/
def Nec.protocol (a : Nat) (d : IR_data_t) : Nat :=
  loadLE d.bytes ((necOffsets a).getD 0 0) Scalar.uint8_t.size

/-- Member `Nec.address`. -/
def Nec.address (a : Nat) (d : IR_data_t) : Nat :=
  loadLE d.bytes ((necOffsets a).getD 1 0) Scalar.uint16_t.size

/-- Member `Nec.command`, at the start of the inner union. -/
def Nec.command (a : Nat) (d : IR_data_t) : Nat :=
  loadLE d.bytes ((necOffsets a).getD 2 0) Scalar.uint16_t.size

/-- Member `Nec.command8`, at the start of the inner union. -/
def Nec.command8 (a : Nat) (d : IR_data_t) : Nat :=
  loadLE d.bytes ((necOffsets a).getD 2 0) Scalar.uint8_t.size

/-- Member `Nec.commandLo`. -/
def Nec.commandLo (a : Nat) (d : IR_data_t) : Nat :=
  loadLE d.bytes ((necOffsets a).getD 2 0 + (loHiOffsets a).getD 0 0) Scalar.uint8_t.size

/-- Member `Nec.commandHi`. -/
def Nec.commandHi (a : Nat) (d : IR_data_t) : Nat :=
  loadLE d.bytes ((necOffsets a).getD 2 0 + (loHiOffsets a).getD 1 0) Scalar.uint8_t.size

/-- The assignment `d.Nec.commandLo = b`. -/
def Nec.setCommandLo (a : Nat) (b : Nat) (d : IR_data_t) : IR_data_t :=
  ⟨storeLE d.bytes ((necOffsets a).getD 2 0 + (loHiOffsets a).getD 0 0) Scalar.uint8_t.size b⟩

/-- The assignment `d.Nec.commandHi = b`. -/
def Nec.setCommandHi (a : Nat) (b : Nat) (d : IR_data_t) : IR_data_t :=
  ⟨storeLE d.bytes ((necOffsets a).getD 2 0 + (loHiOffsets a).getD 1 0) Scalar.uint8_t.size b⟩

/-- The assignment `d.Nec.command = w`. -/
def Nec.setCommand (a : Nat) (w : Nat) (d : IR_data_t) : IR_data_t :=
  ⟨storeLE d.bytes ((necOffsets a).getD 2 0) Scalar.uint16_t.size w⟩

end IR_data_t

/-! ## `class CIRLData` -/

/-- Subtraction of two `uint32_t` values: the result is reduced modulo `2 ^ 32`. -/
def sub32 (a b : Nat) : Nat := (a % 2 ^ 32 + (2 ^ 32 - b % 2 ^ 32)) % 2 ^ 32

/-- The static data members of `CIRLData`. -/
structure CIRLData where
  /-- Member `static volatile uint8_t IRLProtocol`. -/
  IRLProtocol : Nat
  /-- Member `static uint32_t IRLLastTime`. -/
  IRLLastTime : Nat
  /-- Member `static volatile uint32_t IRLLastEvent`. -/
  IRLLastEvent : Nat
  deriving DecidableEq, Repr

/-- What a consumer-side query does to the processor and to the shared data, in
program order. Reads record the value of `SREG` at the moment of the access. -/
inductive Event where
  /-- The instruction `cli()`. -/
  | cli
  /-- A call of `micros()`. -/
  | micros (sreg : Nat)
  /-- A read of `IRLLastEvent`. -/
  | loadLastEvent (sreg : Nat)
  /-- The assignment `SREG = v`. -/
  | storeSREG (v : Nat)
  deriving DecidableEq, Repr

/-- The processor status register, the shared data and the accesses made so far. -/
structure Machine where
  /-- The 8-bit AVR status register. -/
  SREG : Nat
  /-- The static members of `CIRLData`. -/
  data : CIRLData
  /-- Accesses made so far, oldest first. -/
  trace : List Event
  deriving DecidableEq, Repr

/-- The global interrupt enable flag is bit 7 of `SREG`. -/
def interruptsEnabled (sreg : Nat) : Bool := sreg.testBit 7

/-- The instruction `cli()` clears the global interrupt enable flag and leaves
the other bits of `SREG` alone. -/
def cli (m : Machine) : Machine :=
  { m with SREG := m.SREG &&& 0x7F, trace := m.trace ++ [Event.cli] }

/-- The call `micros()`: the platform clock, an `unsigned long` of 32 bits whose
reading `now` is supplied from outside. It leaves `SREG` and the members of
`CIRLData` as they are. -/
def micros (now : Nat) (m : Machine) : Nat × Machine :=
  (now % 2 ^ 32, { m with trace := m.trace ++ [Event.micros m.SREG] })

/-- A read of the shared variable `IRLLastEvent`. -/
def loadLastEvent (m : Machine) : Nat × Machine :=
  (m.data.IRLLastEvent, { m with trace := m.trace ++ [Event.loadLastEvent m.SREG] })

/-- The assignment `SREG = v`. -/
def storeSREG (v : Nat) (m : Machine) : Machine :=
  { m with SREG := v, trace := m.trace ++ [Event.storeSREG v] }

namespace CIRLData

/-- Method `uint32_t timeout(void)`: `oldSREG = SREG; cli();`
`timeout = micros() - IRLLastEvent; SREG = oldSREG; return timeout;`. -/
def timeout (now : Nat) (m : Machine) : Nat × Machine :=
  let oldSREG := m.SREG
  let m1 := cli m
  let (t, m2) := micros now m1
  let (e, m3) := loadLastEvent m2
  let timeout := sub32 t e
  let m4 := storeSREG oldSREG m3
  (timeout, m4)

/-- Method `uint32_t lastEvent(void)`: `oldSREG = SREG; cli();`
`time = IRLLastEvent; SREG = oldSREG; return time;`. -/
def lastEvent (m : Machine) : Nat × Machine :=
  let oldSREG := m.SREG
  let m1 := cli m
  let (time, m2) := loadLastEvent m1
  let m3 := storeSREG oldSREG m2
  (time, m3)

end CIRLData

/-! ## The result latch behind `available()`, `read()`, `reset()`

The header only declares these three members of `CIRLremote`; their bodies are
in `IRLremoteReceive.hpp`. -/

/-- The generic view of a decoded result: protocol tag, address, command. -/
structure DecodedResult where
  /-- The protocol tag. -/
  protocol : Nat
  /-- The address, up to 16 bits. -/
  address : Nat
  /-- The command, up to 32 bits. -/
  command : Nat
  deriving DecidableEq, Repr

/-- Modelled from the spec: the "no protocol" sentinel that `read()` returns when
nothing is fresh (the body of `read()` is in `IRLremoteReceive.hpp`). The spec
fixes its protocol, `NO_PROTOCOL`; address and command are taken as zero. -/
def noProtocolResult : DecodedResult :=
  { protocol := IRType.IR_NO_PROTOCOL.toNat, address := 0, command := 0 }

/-- Modelled from the spec: the ResultLatch of section 3, a single decoded
result slot and a "fresh" flag (the storage behind `read()` is declared in the
protocol files `IRL_*.hpp`). -/
structure ResultLatch where
  /-- The single result slot. -/
  slot : DecodedResult
  /-- The "fresh" flag. -/
  fresh : Bool
  deriving DecidableEq, Repr

namespace ResultLatch

/-- Modelled from the spec: `write(result)` of section 4.3, the completion step
of the capture path (in `IRLremoteReceive.hpp` and `IRL_*.hpp`): it overwrites
any unread result and sets the fresh flag. -/
def write (r : DecodedResult) (_l : ResultLatch) : ResultLatch :=
  { slot := r, fresh := true }

/-- Modelled from the spec: `available()` of section 4.3 (body in
`IRLremoteReceive.hpp`): it returns the fresh flag without clearing it. -/
def available (l : ResultLatch) : Bool := l.fresh

/-- Modelled from the spec: `read()` of section 4.3 (body in
`IRLremoteReceive.hpp`): it returns the latest result and clears the fresh flag;
with nothing fresh it returns the "no protocol" sentinel. -/
def read (l : ResultLatch) : DecodedResult × ResultLatch :=
  if l.fresh then (l.slot, { l with fresh := false })
  else (noProtocolResult, l)

/-- Modelled from the spec: `reset()` of section 4.3 (body in
`IRLremoteReceive.hpp`): it clears the fresh flag and fills the slot with the
sentinel. -/
def reset (_l : ResultLatch) : ResultLatch :=
  { slot := noProtocolResult, fresh := false }

end ResultLatch

/-! ## Theorems -/

section Enumeration

open IRType

/-- C2: for every enumerator of `IRType`, bit 7 (`0x80`) of its value is set if
and only if the enumerator is not `IR_NO_PROTOCOL`; its value is below 256, so
reducing it to 8 bits loses nothing; and `IR_NO_PROTOCOL` is 0. -/
theorem msb_separates_ready (t : IRType) :
    (msbSet t.toNat = true ↔ t ≠ IR_NO_PROTOCOL)
      ∧ t.toNat < 256
      ∧ t.toNat % 2 ^ 8 = t.toNat
      ∧ IR_NO_PROTOCOL.toNat = 0 := by
  cases t <;> decide

/-- C7: `IR_NEW_PROTOCOL` is 128 and each enumerator declared after it is 128
plus its position (`IR_USER` = 129, ..., `IR_HASH` = 140); the fourteen values
are pairwise distinct, so two enumerators with the same value are the same
enumerator, and the three NEC tags differ from each other. -/
theorem protocol_numbers_unique :
    IR_NEW_PROTOCOL.toNat = 128
      ∧ (all.drop 2).map toNat = (List.range 12).map (fun i => 128 + (i + 1))
      ∧ [IR_USER, IR_ALL, IR_NEC, IR_NEC_EXTENDED, IR_NEC_REPEAT, IR_PANASONIC, IR_SONY8,
          IR_SONY12, IR_SONY15, IR_SONY20, IR_RAW, IR_HASH].map toNat
          = [129, 130, 131, 132, 133, 134, 135, 136, 137, 138, 139, 140]
      ∧ all.length = 14
      ∧ (∀ t : IRType, t ∈ all)
      ∧ (all.map toNat).Nodup
      ∧ (∀ p q : IRType, p.toNat = q.toNat ↔ p = q)
      ∧ [IR_NEC.toNat, IR_NEC_EXTENDED.toNat, IR_NEC_REPEAT.toNat].Nodup := by
  refine ⟨by decide, by decide, by decide, by decide, ?_, by decide, ?_, by decide⟩
  · intro t
    cases t <;> decide
  · intro p q
    cases p <;> cases q <;> decide

/-- C8: for two distinct named protocols `p`, `q` in `IR_USER .. IR_HASH`, the
tags with the top bit cleared (`AND 0x7F`) differ; the cleared tag of `p` is not
0, the value of `IR_NO_PROTOCOL`; and setting the top bit again gives `p` back. -/
theorem consumed_tag_identifies (p q : IRType)
    (hp : IR_USER.toNat ≤ p.toNat ∧ p.toNat ≤ IR_HASH.toNat)
    (hq : IR_USER.toNat ≤ q.toNat ∧ q.toNat ≤ IR_HASH.toNat)
    (hpq : p ≠ q) :
    p.toNat &&& 0x7F ≠ q.toNat &&& 0x7F
      ∧ p.toNat &&& 0x7F ≠ 0
      ∧ p.toNat &&& 0x7F ≠ IR_NO_PROTOCOL.toNat
      ∧ (p.toNat &&& 0x7F) ||| 0x80 = p.toNat := by
  revert hp hq hpq
  cases p <;> cases q <;> decide

/-- Witness for C8 at the tags `IR_NEC` and `IR_NEC_REPEAT`. -/
theorem consumed_tag_identifies_witness :
    IR_NEC.toNat &&& 0x7F = 3 ∧ IR_NEC_REPEAT.toNat &&& 0x7F = 5
      ∧ (IR_NEC.toNat &&& 0x7F ≠ IR_NEC_REPEAT.toNat &&& 0x7F
          ∧ IR_NEC.toNat &&& 0x7F ≠ 0
          ∧ IR_NEC.toNat &&& 0x7F ≠ IR_NO_PROTOCOL.toNat
          ∧ (IR_NEC.toNat &&& 0x7F) ||| 0x80 = IR_NEC.toNat) :=
  ⟨by decide, by decide,
    consumed_tag_identifies IR_NEC IR_NEC_REPEAT (by decide) (by decide) (by decide)⟩

end Enumeration

section TimingQueries

open CIRLData

/-- After `cli()` the interrupt enable flag is off, whatever `SREG` held. -/
theorem interruptsEnabled_and_0x7F (s : Nat) : interruptsEnabled (s &&& 0x7F) = false := by
  unfold interruptsEnabled
  rw [Nat.testBit_and]
  have h : Nat.testBit 0x7F 7 = false := by decide
  simp [h]

/-- C1: for every stored last-event timestamp and every clock reading `now`,
`timeout()` returns `(now - IRLLastEvent) mod 2 ^ 32`; and whenever `now` is
`(IRLLastEvent + d) mod 2 ^ 32` for an elapsed duration `d < 2 ^ 32`, wrapped or
not, it returns exactly `d`. -/
theorem timeout_wrap_safe (m : Machine) (now : Nat) :
    (((timeout now m).1 : Nat) : Int)
        = ((now : Int) - (m.data.IRLLastEvent : Int)) % 2 ^ 32
      ∧ ∀ d : Nat, d < 2 ^ 32 → now = (m.data.IRLLastEvent + d) % 2 ^ 32 →
          (timeout now m).1 = d := by
  constructor
  · simp only [timeout, micros, loadLastEvent, cli, sub32]
    norm_num
    omega
  · intro d hd h
    simp only [timeout, micros, loadLastEvent, cli, sub32]
    norm_num at *
    omega

/-- Witness for C1: the clock wrapped, last event at `2 ^ 32 - 10`, reading 15,
elapsed 25. -/
theorem timeout_wrap_safe_witness :
    (15 : Nat) < 4294967286
      ∧ (timeout 15 ⟨0x80, ⟨131, 0, 4294967286⟩, []⟩).1 = 25 :=
  ⟨by decide,
    (timeout_wrap_safe ⟨0x80, ⟨131, 0, 4294967286⟩, []⟩ 15).2 25 (by decide) (by decide)⟩

/-- C6: in `timeout()` and in `lastEvent()`, for every entry value of `SREG`,
the accesses are, in order: `cli()`, (the clock call,) the one read of
`IRLLastEvent`, the store of the entry value to `SREG`; the read happens with
the interrupt enable flag off; and on return `SREG` has its entry value. -/
theorem queries_in_critical_section (m : Machine) (now : Nat) :
    ((timeout now m).2.trace
        = m.trace ++ [Event.cli, Event.micros (m.SREG &&& 0x7F),
            Event.loadLastEvent (m.SREG &&& 0x7F), Event.storeSREG m.SREG]
      ∧ (timeout now m).2.SREG = m.SREG)
    ∧ ((lastEvent m).2.trace
        = m.trace ++ [Event.cli, Event.loadLastEvent (m.SREG &&& 0x7F),
            Event.storeSREG m.SREG]
      ∧ (lastEvent m).2.SREG = m.SREG)
    ∧ interruptsEnabled (m.SREG &&& 0x7F) = false := by
  refine ⟨⟨?_, rfl⟩, ⟨?_, rfl⟩, interruptsEnabled_and_0x7F m.SREG⟩
  · simp [timeout, micros, loadLastEvent, cli, storeSREG]
  · simp [lastEvent, loadLastEvent, cli, storeSREG]

/-- C9: `lastEvent()` returns the stored `IRLLastEvent`; `lastEvent()` and
`timeout()` leave `IRLProtocol`, `IRLLastTime` and `IRLLastEvent` as they were;
so a second `lastEvent()` right after the first returns the same value. -/
theorem queries_do_not_write (m : Machine) (now : Nat) :
    (lastEvent m).1 = m.data.IRLLastEvent
      ∧ (lastEvent m).2.data = m.data
      ∧ (timeout now m).2.data = m.data
      ∧ (lastEvent (lastEvent m).2).1 = (lastEvent m).1
      ∧ (lastEvent (timeout now m).2).1 = (lastEvent m).1 :=
  ⟨rfl, rfl, rfl, rfl, rfl⟩

end TimingQueries

section Latch

open ResultLatch

/-- C3: after one `write` of a result `r`, the first `read()` returns `r`
(protocol, address and command), `available()` is true before it and false after
it, and a second `read()` returns a result whose protocol is `IR_NO_PROTOCOL`,
which is 0. -/
theorem read_at_most_once (l : ResultLatch) (r : DecodedResult) :
    available (write r l) = true
      ∧ (read (write r l)).1 = r
      ∧ available (read (write r l)).2 = false
      ∧ (read (read (write r l)).2).1.protocol = IRType.IR_NO_PROTOCOL.toNat
      ∧ IRType.IR_NO_PROTOCOL.toNat = 0 :=
  ⟨rfl, rfl, rfl, rfl, by decide⟩

end Latch

section Views

open IR_data_t

/-- On a target without alignment padding the object is seven bytes. -/
theorem wellFormed_packed (d : IR_data_t) (hd : d.WellFormed 1) :
    ∃ b0 b1 b2 b3 b4 b5 b6, d = ⟨[b0, b1, b2, b3, b4, b5, b6]⟩
      ∧ b0 < 256 ∧ b1 < 256 ∧ b2 < 256 ∧ b3 < 256 ∧ b4 < 256 ∧ b5 < 256 ∧ b6 < 256 := by
  obtain ⟨bs⟩ := d
  obtain ⟨hlen, hb⟩ := hd
  have hs : sizeofData 1 = 7 := by decide
  simp only [hs] at hlen
  match bs, hlen with
  | [b0, b1, b2, b3, b4, b5, b6], _ =>
    simp at hb
    exact ⟨b0, b1, b2, b3, b4, b5, b6, rfl, hb⟩

/-- On a target that aligns `uint16_t` to two bytes the object is eight bytes. -/
theorem wellFormed_aligned (a : Nat) (ha : a = 2 ∨ a = 4) (d : IR_data_t)
    (hd : d.WellFormed a) :
    ∃ b0 b1 b2 b3 b4 b5 b6 b7, d = ⟨[b0, b1, b2, b3, b4, b5, b6, b7]⟩
      ∧ b0 < 256 ∧ b1 < 256 ∧ b2 < 256 ∧ b3 < 256 ∧ b4 < 256 ∧ b5 < 256 ∧ b6 < 256
      ∧ b7 < 256 := by
  obtain ⟨bs⟩ := d
  obtain ⟨hlen, hb⟩ := hd
  have hs : sizeofData a = 8 := by
    rcases ha with rfl | rfl <;> decide
  simp only [hs] at hlen
  match bs, hlen with
  | [b0, b1, b2, b3, b4, b5, b6, b7], _ =>
    simp at hb
    exact ⟨b0, b1, b2, b3, b4, b5, b6, b7, rfl, hb⟩

/-- C5: for every `IR_data_t` object, on a target with largest alignment 1, 2 or
4, the `Nec` view reads the bits of the generic view: `Nec.protocol` is
`protocol`, `Nec.address` is `address`, `Nec.command` is `command mod 2 ^ 16`,
`Nec.commandLo` is `command mod 256`, `Nec.commandHi` is
`(command / 256) mod 256`, `Nec.command8` is `Nec.commandLo`, and `Nec.command`
is `Nec.commandHi * 256 + Nec.commandLo`. -/
theorem nec_view_same_bits (a : Nat) (ha : a = 1 ∨ a = 2 ∨ a = 4) (d : IR_data_t)
    (hd : d.WellFormed a) :
    Nec.protocol a d = protocol a d
      ∧ Nec.address a d = address a d
      ∧ Nec.command a d = command a d % 2 ^ 16
      ∧ Nec.commandLo a d = command a d % 256
      ∧ Nec.commandHi a d = command a d / 256 % 256
      ∧ Nec.command8 a d = Nec.commandLo a d
      ∧ Nec.command a d = Nec.commandHi a d * 256 + Nec.commandLo a d := by
  rcases ha with rfl | ha
  · obtain ⟨b0, b1, b2, b3, b4, b5, b6, rfl, h0, h1, h2, h3, h4, h5, h6⟩ :=
      wellFormed_packed d hd
    simp [Nec.protocol, protocol, Nec.address, address, Nec.command, command, Nec.commandLo,
      Nec.commandHi, Nec.command8, genericOffsets, necOffsets, loHiOffsets, layout, alignUp,
      Scalar.size, Scalar.align, loadLE]
    omega
  · obtain ⟨b0, b1, b2, b3, b4, b5, b6, b7, rfl, h0, h1, h2, h3, h4, h5, h6, h7⟩ :=
      wellFormed_aligned a ha d hd
    rcases ha with rfl | rfl <;>
    · simp [Nec.protocol, protocol, Nec.address, address, Nec.command, command, Nec.commandLo,
        Nec.commandHi, Nec.command8, genericOffsets, necOffsets, loHiOffsets, layout, alignUp,
        Scalar.size, Scalar.align, loadLE]
      omega

/-- Witness for C5: protocol `0x83`, address `0x1234`, command `0x89ABCDEF` on
AVR. -/
theorem nec_view_same_bits_witness :
    command 1 ⟨[0x83, 0x34, 0x12, 0xEF, 0xCD, 0xAB, 0x89]⟩ = 0x89ABCDEF
      ∧ Nec.commandLo 1 ⟨[0x83, 0x34, 0x12, 0xEF, 0xCD, 0xAB, 0x89]⟩ = 0xEF
      ∧ Nec.commandHi 1 ⟨[0x83, 0x34, 0x12, 0xEF, 0xCD, 0xAB, 0x89]⟩
          = command 1 ⟨[0x83, 0x34, 0x12, 0xEF, 0xCD, 0xAB, 0x89]⟩ / 256 % 256 :=
  ⟨by decide, by decide,
    (nec_view_same_bits 1 (by decide) ⟨[0x83, 0x34, 0x12, 0xEF, 0xCD, 0xAB, 0x89]⟩
      (by decide)).2.2.2.2.1⟩

/-- C10: for every `IR_data_t` object, on a target with largest alignment 1, 2
or 4: `Nec.commandLo = b` replaces the lowest byte of the generic `command`,
`Nec.commandHi = b` replaces its second-lowest byte, `Nec.command = w` replaces
its low 16 bits; each of the three leaves the generic `protocol`, the generic
`address` and bits 16..31 of the generic `command` as they were, and the object
keeps its size. -/
theorem nec_write_touches_named_bits (a : Nat) (ha : a = 1 ∨ a = 2 ∨ a = 4) (d : IR_data_t)
    (hd : d.WellFormed a) (b w : Nat) (hb : b < 2 ^ 8) (hw : w < 2 ^ 16) :
    (command a (Nec.setCommandLo a b d) = command a d / 256 * 256 + b
        ∧ protocol a (Nec.setCommandLo a b d) = protocol a d
        ∧ address a (Nec.setCommandLo a b d) = address a d
        ∧ command a (Nec.setCommandLo a b d) / 2 ^ 16 = command a d / 2 ^ 16
        ∧ (Nec.setCommandLo a b d).WellFormed a)
      ∧ (command a (Nec.setCommandHi a b d)
            = command a d / 2 ^ 16 * 2 ^ 16 + b * 256 + command a d % 256
        ∧ protocol a (Nec.setCommandHi a b d) = protocol a d
        ∧ address a (Nec.setCommandHi a b d) = address a d
        ∧ command a (Nec.setCommandHi a b d) / 2 ^ 16 = command a d / 2 ^ 16
        ∧ (Nec.setCommandHi a b d).WellFormed a)
      ∧ (command a (Nec.setCommand a w d) = command a d / 2 ^ 16 * 2 ^ 16 + w
        ∧ protocol a (Nec.setCommand a w d) = protocol a d
        ∧ address a (Nec.setCommand a w d) = address a d
        ∧ command a (Nec.setCommand a w d) / 2 ^ 16 = command a d / 2 ^ 16
        ∧ (Nec.setCommand a w d).WellFormed a) := by
  rcases ha with rfl | ha
  · obtain ⟨b0, b1, b2, b3, b4, b5, b6, rfl, h0, h1, h2, h3, h4, h5, h6⟩ :=
      wellFormed_packed d hd
    simp [Nec.setCommandLo, Nec.setCommandHi, Nec.setCommand, protocol, address, command,
      WellFormed, sizeofData, genericOffsets, necOffsets, loHiOffsets, layout, alignUp,
      Scalar.size, Scalar.align, loadLE, storeLE]
    omega
  · obtain ⟨b0, b1, b2, b3, b4, b5, b6, b7, rfl, h0, h1, h2, h3, h4, h5, h6, h7⟩ :=
      wellFormed_aligned a ha d hd
    rcases ha with rfl | rfl <;>
    · simp [Nec.setCommandLo, Nec.setCommandHi, Nec.setCommand, protocol, address, command,
        WellFormed, sizeofData, genericOffsets, necOffsets, loHiOffsets, layout, alignUp,
        Scalar.size, Scalar.align, loadLE, storeLE]
      omega

/-- Witness for C10: writing `0x55` to `Nec.commandLo` of an object with command
`0x89ABCDEF` on AVR gives command `0x89ABCD55`. -/
theorem nec_write_touches_named_bits_witness :
    command 1 (Nec.setCommandLo 1 0x55 ⟨[0x83, 0x34, 0x12, 0xEF, 0xCD, 0xAB, 0x89]⟩) = 0x89ABCD55
      ∧ command 1 (Nec.setCommandLo 1 0x55 ⟨[0x83, 0x34, 0x12, 0xEF, 0xCD, 0xAB, 0x89]⟩)
          = command 1 ⟨[0x83, 0x34, 0x12, 0xEF, 0xCD, 0xAB, 0x89]⟩ / 256 * 256 + 0x55 :=
  ⟨by decide,
    (nec_write_touches_named_bits 1 (by decide) ⟨[0x83, 0x34, 0x12, 0xEF, 0xCD, 0xAB, 0x89]⟩
      (by decide) 0x55 0x1234 (by decide) (by decide)).1.1⟩

end Views

end IRLremote
